import Mathlib

/-!
# Verification of the claude-code-monitor session registry

A shallow embedding, in Lean 4, of the parts of the `claude-code-monitor`
repository that the specification's claims are about:

* `src/constants.ts` — timeout / TTL / hook-event constants;
* `src/utils/tty-cache.ts` — the TTY liveness checker with its TTL cache;
* `src/utils/focus.ts` — TTY-path validation guarding AppleScript execution;
* `src/utils/transcript.ts` — first-user-message extraction and truncation;
* `src/menubar/menubar.swift` — the menu-bar viewer's `loadSessions` read path;
* the registry store (`src/store/file-store.ts`) and hook handler
  (`src/hook/handler.ts`), which are absent from the source tree and are
  modelled from the specification where a claim needs them.

Effectful inputs (the filesystem `stat` call, JSON decoding, the AppleScript
executor, `Date.now()`) are passed in explicitly as function arguments, so
every definition is a pure, executable Lean function.  JavaScript numbers
used as millisecond timestamps are modelled as `Int`.
-/

namespace CCMonitor

/-! ## Constants (`src/constants.ts`) -/

/-- `SESSION_TIMEOUT_MS = 30 * 60 * 1000` — session timeout in milliseconds
(30 minutes), from `src/constants.ts`. -/
def SESSION_TIMEOUT_MS : Int := 30 * 60 * 1000

/-- `TTY_CACHE_TTL_MS = 30_000` — TTY cache TTL in milliseconds (30 seconds),
from `src/constants.ts`. -/
def TTY_CACHE_TTL_MS : Int := 30000

/-- `HOOK_EVENTS` — the five hook event names supported by the monitor,
from `src/constants.ts`. -/
def HOOK_EVENTS : List String :=
  ["UserPromptSubmit", "PreToolUse", "PostToolUse", "Notification", "Stop"]

/-! ## TTY liveness checker (`src/utils/tty-cache.ts`)

The TypeScript module keeps a module-level `Map<string, {alive, checkedAt}>`.
We pass the cache in and out explicitly.  The effectful `statSync` call is
abstracted as `statOk : String → Bool` (`true` iff the `stat` succeeds; any
thrown I/O error is `false`), and `Date.now()` as the argument `now`. -/

/-- One entry of the TTY cache: the cached liveness verdict and the
timestamp at which it was computed. -/
structure CacheEntry where
  alive : Bool
  checkedAt : Int
  deriving Repr, DecidableEq

/-- The TTY cache, a finite map from tty path to entry, modelled as an
association list (insertion order preserved, as in a JS `Map`). -/
def TtyCache := List (String × CacheEntry)

instance : DecidableEq TtyCache := by
  unfold TtyCache; infer_instance

/-- `Map.get`: the entry bound to `k`, if any. -/
def cacheGet (c : TtyCache) (k : String) : Option CacheEntry :=
  match c.find? (fun p => p.1 = k) with
  | some p => some p.2
  | none => none

/-- `Map.set`: bind `k` to `v`, overwriting an existing binding in place
(JS `Map.set` keeps the original insertion position) or appending. -/
def cacheSet (c : TtyCache) (k : String) (v : CacheEntry) : TtyCache :=
  match c with
  | [] => [(k, v)]
  | p :: rest =>
    if p.1 = k then (k, v) :: rest else p :: cacheSet rest k v

/-- `isTtyAlive` from `src/utils/tty-cache.ts`.  Returns the liveness verdict
together with the updated cache.  `tty = none` models `undefined`; a present
empty string is falsy in JS (`if (!tty) return true`), hence the extra
`t = ""` test. -/
def isTtyAlive (statOk : String → Bool) (now : Int) (cache : TtyCache)
    (tty : Option String) : Bool × TtyCache :=
  match tty with
  | none => (true, cache)
  | some t =>
    if t = "" then (true, cache)
    else
      match cacheGet cache t with
      | some cached =>
        if now - cached.checkedAt < TTY_CACHE_TTL_MS then
          (cached.alive, cache)
        else
          let a := statOk t
          (a, cacheSet cache t ⟨a, now⟩)
      | none =>
        let a := statOk t
        (a, cacheSet cache t ⟨a, now⟩)

/-- `isTtyAlive` from `src/menubar/menubar.swift`: `nil` tty is alive;
otherwise alive iff `stat(tty, &buf) == 0`. -/
def swiftIsTtyAlive (statOk : String → Bool) (tty : Option String) : Bool :=
  match tty with
  | none => true
  | some t => statOk t

/-! ## Terminal focus (`src/utils/focus.ts`)

`focusSession` runs AppleScript via `osascript` only after two guards:
the platform must be macOS and the tty must match
`/^\/dev\/(ttys?\d+|pts\/\d+)$/`.  The script executor is abstracted as
`exec : FocusScript → Bool`; the platform (`process.platform`) as a string
argument. -/

/-- Helper for `isValidTtyPath`: does a character list match `\d+`
(one or more ASCII digits, to the end)? -/
def matchDigits1 (cs : List Char) : Bool :=
  match cs with
  | [] => false
  | c :: rest => c.isDigit && rest.all Char.isDigit

/-- Helper for `isValidTtyPath`: does the part after `/dev/tty` match
`s?\d+` (optional `s`, then one or more digits, to the end)? -/
def ttyNumTail (cs : List Char) : Bool :=
  match cs with
  | 's' :: rest => matchDigits1 rest
  | _ => matchDigits1 cs

/-- The regex `/^\/dev\/(ttys?\d+|pts\/\d+)$/` from `src/utils/focus.ts`,
as a matcher on the character list of the candidate path. -/
def validTtyCore (cs : List Char) : Bool :=
  match cs with
  | '/' :: 'd' :: 'e' :: 'v' :: '/' :: rest =>
    match rest with
    | 't' :: 't' :: 'y' :: tail => ttyNumTail tail
    | 'p' :: 't' :: 's' :: '/' :: ds => matchDigits1 ds
    | _ => false
  | _ => false

/-- `isValidTtyPath` from `src/utils/focus.ts`: `tty` matches
`/^\/dev\/(ttys?\d+|pts\/\d+)$/`. -/
def isValidTtyPath (tty : String) : Bool :=
  validTtyCore tty.data

/-- `isMacOS` from `src/utils/focus.ts`: `process.platform === 'darwin'`,
with the platform passed in explicitly. -/
def isMacOS (platform : String) : Bool :=
  platform = "darwin"

/-- The three AppleScript programs `focusSession` can hand to `osascript`:
the iTerm2 and Terminal.app scripts interpolate the (sanitized) tty,
the Ghostty script does not. -/
inductive FocusScript where
  | iterm (tty : String)
  | terminalApp (tty : String)
  | ghostty
  deriving Repr, DecidableEq

/-- `focusSession` from `src/utils/focus.ts`: return `false` off macOS or on
an invalid tty path; otherwise try the three focus strategies in order,
short-circuiting on the first success (`Array.prototype.some`). -/
def focusSession (platform : String) (exec : FocusScript → Bool)
    (tty : String) : Bool :=
  if !(isMacOS platform) then false
  else if !(isValidTtyPath tty) then false
  else exec (.iterm tty) || (exec (.terminalApp tty) || exec .ghostty)

/-- A character that can occur in a string accepted by `isValidTtyPath`:
one of the literal characters of the pattern, or an ASCII digit. -/
def ttyPatternChar (c : Char) : Prop :=
  c = '/' ∨ c = 'd' ∨ c = 'e' ∨ c = 'v' ∨ c = 't' ∨ c = 'y' ∨ c = 's' ∨
    c = 'p' ∨ c.isDigit = true

/-! ## Generic comparator sort

Both read paths sort their result (`Array.prototype.sort` /
Swift `sorted(by:)`).  We model sorting with a comparator as insertion sort;
for the claims only the membership behaviour of the sort matters. -/

/-- Insert `x` into `l` before the first element `y` with `le x y = true`. -/
def insertLe {α : Type} (le : α → α → Bool) (x : α) : List α → List α
  | [] => [x]
  | y :: ys => if le x y then x :: y :: ys else y :: insertLe le x ys

/-- Insertion sort by the comparator `le`. -/
def sortByLe {α : Type} (le : α → α → Bool) : List α → List α
  | [] => []
  | x :: xs => insertLe le x (sortByLe le xs)

/-! ## The menu-bar viewer's read path (`src/menubar/menubar.swift`)

`loadSessions` reads the raw bytes of `~/.claude-monitor/sessions.json`
(`FileManager.default.contents`, modelled as `Option String`), decodes them
with `JSONDecoder` (modelled as an explicit `decode` argument returning
`Option SwiftStoreData`), filters the dictionary's values by
`isTtyAlive($0.tty)` and sorts by `created_at` (an ISO-8601 *string*,
compared as a string). -/

/-- The Swift `Session` struct decoded from `sessions.json`. -/
structure SwiftSession where
  session_id : String
  cwd : String
  tty : Option String
  status : String
  created_at : String
  updated_at : String
  lastMessage : Option String
  taskTitle : Option String
  deriving Repr, DecidableEq

/-- The Swift `StoreData` struct: the decoded `sessions.json` document.
The `[String: Session]` dictionary is modelled as an association list. -/
structure SwiftStoreData where
  sessions : List (String × SwiftSession)
  updated_at : String
  deriving Repr, DecidableEq

/-- `loadSessions` from `src/menubar/menubar.swift`: missing file → `[]`;
undecodable content → `[]`; otherwise the store's sessions filtered by tty
liveness and sorted by `created_at`. -/
def swiftLoadSessions (decode : String → Option SwiftStoreData)
    (statOk : String → Bool) (file : Option String) : List SwiftSession :=
  match file with
  | none => []
  | some raw =>
    match decode raw with
    | none => []
    | some store =>
      sortByLe (fun a b => decide (a.created_at < b.created_at))
        ((store.sessions.map Prod.snd).filter
          (fun s => swiftIsTtyAlive statOk s.tty))

/-! ## The registry store

The repository's registry store (`src/store/file-store.ts`) and hook handler
(`src/hook/handler.ts`) are not part of the available source tree; only their
tests, callers and constants are.  The definitions below are therefore
modelled from the specification (§3, §4.3) and checked against the available
callers. -/

/-- Modelled from the spec: the status state machine's three states,
`running | waiting_input | stopped` (spec §4.3; `src/types/index.ts` is
absent from the source tree). -/
inductive SessionStatus where
  | running
  | waiting_input
  | stopped
  deriving Repr, DecidableEq

/-- Modelled from the spec: a tracked Session record (spec §3; the `Session`
type of the absent `src/types/index.ts`).  Timestamps are milliseconds. -/
structure StoreSession where
  session_id : String
  cwd : String
  tty : Option String
  status : SessionStatus
  created_at : Int
  updated_at : Int
  deriving Repr, DecidableEq

/-- Modelled from the spec: the whole persisted registry (spec §3), keeping
the sessions in insertion/update order.  Identity is the composite key
`(session_id, tty-or-absence)` carried by each record's own fields
(spec §3: "Two sessions are the same record iff their keys are equal"). -/
structure Registry where
  sessions : List StoreSession
  updated_at : Int
  deriving Repr, DecidableEq

/-- Modelled from the spec: do two records/events have the same identity,
i.e. the same `(session_id, tty)` composite key (spec §3)? -/
def sameIdentity (s : StoreSession) (sid : String) (tty : Option String) :
    Bool :=
  decide (s.session_id = sid) && decide (s.tty = tty)

/-- Modelled from the spec: the per-session keep condition of the eviction
pass (spec §3 invariants, §4.3 step 3): a session is dropped when
`now - updated_at` exceeds `SESSION_TIMEOUT_MS` or its tty is set and no
longer alive. -/
def sessionKept (now : Int) (alive : String → Bool) (s : StoreSession) :
    Bool :=
  decide (now - s.updated_at ≤ SESSION_TIMEOUT_MS) &&
    (match s.tty with
     | none => true
     | some t => alive t)

/-- Modelled from the spec: the eviction pass (spec §4.3 step 3), dropping
every session that fails `sessionKept`. -/
def evictPass (now : Int) (alive : String → Bool)
    (ss : List StoreSession) : List StoreSession :=
  ss.filter (sessionKept now alive)

/-- Modelled from the spec: tty takeover (spec §4.3 step 4): if the incoming
event's tty is present and an existing record holds the same tty under a
different `session_id`, that record is removed first. -/
def takeover (sid : String) (tty : Option String)
    (ss : List StoreSession) : List StoreSession :=
  match tty with
  | none => ss
  | some t =>
    ss.filter (fun s => !(decide (s.tty = some t) && !(decide (s.session_id = sid))))

/-- Modelled from the spec: the upsert (spec §4.3 step 5): create the session
if its identity is absent (with `created_at = now`), else mutate only
`status` and `updated_at` of the records with that identity. -/
def upsert (now : Int) (sid cwd : String) (tty : Option String)
    (status : SessionStatus) (ss : List StoreSession) : List StoreSession :=
  if ss.any (fun s => sameIdentity s sid tty) then
    ss.map (fun s =>
      if sameIdentity s sid tty then
        { s with status := status, updated_at := now }
      else s)
  else
    ss ++ [{ session_id := sid, cwd := cwd, tty := tty, status := status,
             created_at := now, updated_at := now }]

/-- Modelled from the spec: the write transaction applied once per accepted
event (spec §4.3 steps 2–5): load, evict, take over the tty, upsert, stamp
the registry's `updated_at`. -/
def applyEvent (now : Int) (alive : String → Bool) (sid cwd : String)
    (tty : Option String) (status : SessionStatus) (reg : Registry) :
    Registry :=
  { sessions := upsert now sid cwd tty status
      (takeover sid tty (evictPass now alive reg.sessions))
    updated_at := now }

/-- Modelled from the spec: the `list()` read operation (spec §4.3): evict
stale entries opportunistically, then return the remaining sessions sorted
by `created_at` ascending. -/
def getSessions (now : Int) (alive : String → Bool) (reg : Registry) :
    List StoreSession :=
  sortByLe (fun a b => decide (a.created_at ≤ b.created_at))
    (evictPass now alive reg.sessions)

/-- A concrete session record used in witnesses and counterexamples:
a `running` session on `/dev/ttys001` last updated on 2020-01-01. -/
def staleSession : SwiftSession :=
  { session_id := "s1"
    cwd := "/home/u/proj"
    tty := some "/dev/ttys001"
    status := "running"
    created_at := "2020-01-01T00:00:00.000Z"
    updated_at := "2020-01-01T00:00:00.000Z"
    lastMessage := none
    taskTitle := none }

/-- A concrete session record with no tty. -/
def noTtySession : SwiftSession :=
  { session_id := "s2"
    cwd := "/home/u/proj"
    tty := none
    status := "running"
    created_at := "2020-01-02T00:00:00.000Z"
    updated_at := "2020-01-02T00:00:00.000Z"
    lastMessage := none
    taskTitle := none }

/-! ## Event-name validation

`isValidHookEventName` and `VALID_HOOK_EVENTS` live in `src/hook/handler.ts`,
which is absent from the available source tree; only the constant
`HOOK_EVENTS` (`src/constants.ts`) and the handler's unit tests
(`tests/handler.test.ts`) are present. -/

/-- Modelled from the spec: `VALID_HOOK_EVENTS` of the absent
`src/hook/handler.ts` — the recognized hook event names, a set built from
`HOOK_EVENTS`; its tests require it to hold exactly those five names. -/
def VALID_HOOK_EVENTS : List String := HOOK_EVENTS

/-- Modelled from the spec: `isValidHookEventName` of the absent
`src/hook/handler.ts` (the spec's `isValidEventName`) — membership of the
fixed recognized set, by exact case-sensitive string comparison with no
normalization. -/
def isValidHookEventName (name : String) : Bool :=
  VALID_HOOK_EVENTS.contains name

/-! ## Transcript title extraction (`src/utils/transcript.ts`)

`getFirstUserMessage` scans a `.jsonl` transcript for the first real user
message and truncates it to `MAX_TASK_TITLE_LENGTH` characters.  A file is
modelled as `Option (List (Option TranscriptEntry))`: `none` for a missing
or unreadable file (or an empty `transcriptPath`), an inner `none` for a
line whose `JSON.parse` throws.  JS strings are modelled as Lean `String`
(lengths and slices count characters rather than UTF-16 code units). -/

/-- `MAX_TASK_TITLE_LENGTH = 50` from `src/utils/transcript.ts`. -/
def MAX_TASK_TITLE_LENGTH : Nat := 50

/-- A content block of a transcript message (`{ type, text? }`). -/
structure ContentBlock where
  type : String
  text : Option String
  deriving Repr, DecidableEq

/-- The `message.content` value of a transcript entry: a plain string, an
array of content blocks, or any other JSON value (carrying only its JS
truthiness, which is all the code inspects of it). -/
inductive JsonContent where
  | str (s : String)
  | blocks (bs : List ContentBlock)
  | other (truthy : Bool)
  deriving Repr, DecidableEq

/-- JS truthiness of a `message.content` value: the empty string is falsy,
every array (even empty) is truthy. -/
def contentTruthy : JsonContent → Bool
  | .str s => !(decide (s = ""))
  | .blocks _ => true
  | .other t => t

/-- One parsed line of a transcript file: its `type` and optional
`message.content` (absent when the entry has no `message` or no
`content`). -/
structure TranscriptEntry where
  type : String
  content : Option JsonContent
  deriving Repr, DecidableEq

/-- The first block of a content array with `type === 'text'` and truthy
`text` (the `for … break` loop of `extractUserText`); blocks with a
missing, empty or differently-typed text are skipped. -/
def firstTextBlock : List ContentBlock → Option String
  | [] => none
  | b :: bs =>
    match b.text with
    | some t =>
      if b.type = "text" ∧ t ≠ "" then some t else firstTextBlock bs
    | none => firstTextBlock bs

/-- Try to match the regex `<[^>]+>[^<]*<\/[^>]+>` at the head of `cs`; on
success return the characters after the match.  The greedy `[^>]+` and
`[^<]*` runs have no backtracking alternatives against the literal
characters that follow them, so the JS engine's match at a position is
exactly this structural match. -/
def matchTagPair (cs : List Char) : Option (List Char) :=
  match cs with
  | '<' :: rest =>
    let tname := rest.takeWhile (· ≠ '>')
    if tname.isEmpty then none
    else
      match rest.drop tname.length with
      | '>' :: afterOpen =>
        let body := afterOpen.takeWhile (· ≠ '<')
        match afterOpen.drop body.length with
        | '<' :: '/' :: closeRest =>
          let cname := closeRest.takeWhile (· ≠ '>')
          if cname.isEmpty then none
          else
            match closeRest.drop cname.length with
            | '>' :: rest4 => some rest4
            | _ => none
        | _ => none
      | _ => none
  | _ => none

/-- The global replace `text.replace(/<[^>]+>[^<]*<\/[^>]+>/gs, '')`:
scan left to right, delete each leftmost match and continue after it,
keeping unmatched characters.  `fuel` bounds the recursion; every step
consumes at least one character, so `cs.length` fuel always suffices. -/
def stripTagsAux (fuel : Nat) (cs : List Char) : List Char :=
  match fuel with
  | 0 => cs
  | fuel + 1 =>
    match cs with
    | [] => []
    | c :: rest =>
      match matchTagPair (c :: rest) with
      | some after => stripTagsAux fuel after
      | none => c :: stripTagsAux fuel rest

/-- `text.replace(/<[^>]+>[^<]*<\/[^>]+>/gs, '')` on a whole string. -/
def stripTags (s : String) : String :=
  ⟨stripTagsAux s.data.length s.data⟩

/-- The characters removed by JS `String.prototype.trim`: ECMAScript
WhiteSpace and LineTerminator code points. -/
def jsWhitespaceChar (c : Char) : Bool :=
  c = ' ' || c = '\t' || c = '\n' || c = '\r' ||
  c = Char.ofNat 0x0b || c = Char.ofNat 0x0c || c = Char.ofNat 0xa0 ||
  c = Char.ofNat 0x1680 ||
  (decide (0x2000 ≤ c.toNat) && decide (c.toNat ≤ 0x200a)) ||
  c = Char.ofNat 0x2028 || c = Char.ofNat 0x2029 || c = Char.ofNat 0x202f ||
  c = Char.ofNat 0x205f || c = Char.ofNat 0x3000 || c = Char.ofNat 0xfeff

/-- JS `String.prototype.trim`: strip leading and trailing whitespace. -/
def jsTrim (s : String) : String :=
  ⟨((s.data.dropWhile jsWhitespaceChar).reverse.dropWhile
      jsWhitespaceChar).reverse⟩

/-- `stripped.startsWith('<')`: does the string begin with the character
`<`? -/
def headIsLt (s : String) : Bool :=
  match s.data with
  | '<' :: _ => true
  | _ => false

/-- `extractUserText` from `src/utils/transcript.ts`: pick the text (a
string content directly, or the first truthy text block of an array),
reject a falsy pick, strip XML-tag pairs and trim; reject the result if it
is empty or still starts with `<`. -/
def extractUserText (content : JsonContent) : Option String :=
  let text? : Option String :=
    match content with
    | .str s => some s
    | .blocks bs => firstTextBlock bs
    | .other _ => none
  match text? with
  | none => none
  | some t =>
    if t = "" then none
    else
      let stripped := jsTrim (stripTags t)
      if stripped.length = 0 ∨ headIsLt stripped = true then none
      else some stripped

/-- The truncation `getFirstUserMessage` applies to the extracted text:
texts of at most `MAX_TASK_TITLE_LENGTH` characters pass unchanged; longer
ones become their first `MAX_TASK_TITLE_LENGTH - 1` characters followed by
`'…'` (`text.slice(0, MAX_TASK_TITLE_LENGTH - 1)` + `'…'`). -/
def truncateTaskTitle (t : String) : String :=
  if t.length ≤ MAX_TASK_TITLE_LENGTH then t
  else ⟨t.data.take (MAX_TASK_TITLE_LENGTH - 1)⟩ ++ "…"

/-- The line scan of `getFirstUserMessage`: find the first line that parses,
has `type === 'user'` and truthy `message.content`, and whose
`extractUserText` yields a text; return that text truncated.  Lines that
fail any of these checks are skipped (`continue`). -/
def getFirstUserMessageLines :
    List (Option TranscriptEntry) → Option String
  | [] => none
  | line :: rest =>
    match line with
    | none => getFirstUserMessageLines rest
    | some e =>
      match e.content with
      | some c =>
        if e.type = "user" ∧ contentTruthy c = true then
          match extractUserText c with
          | none => getFirstUserMessageLines rest
          | some t => some (truncateTaskTitle t)
        else getFirstUserMessageLines rest
      | none => getFirstUserMessageLines rest

/-- `getFirstUserMessage` from `src/utils/transcript.ts`: `none` for a
missing/unreadable file, otherwise the first eligible user text,
truncated. -/
def getFirstUserMessage
    (file : Option (List (Option TranscriptEntry))) : Option String :=
  match file with
  | none => none
  | some lines => getFirstUserMessageLines lines

/-- Following the claim's words, for comparison with the code: "the first
eligible user message text (non-empty after stripping XML-tagged wrappers,
not starting with `<`)" — the same scan as `getFirstUserMessageLines`
but returning the text untruncated. -/
def firstEligibleUserTextLines :
    List (Option TranscriptEntry) → Option String
  | [] => none
  | line :: rest =>
    match line with
    | none => firstEligibleUserTextLines rest
    | some e =>
      match e.content with
      | some c =>
        if e.type = "user" ∧ contentTruthy c = true then
          match extractUserText c with
          | none => firstEligibleUserTextLines rest
          | some t => some t
        else firstEligibleUserTextLines rest
      | none => firstEligibleUserTextLines rest

/-- The first eligible user message text of a whole transcript file. -/
def firstEligibleUserText
    (file : Option (List (Option TranscriptEntry))) : Option String :=
  match file with
  | none => none
  | some lines => firstEligibleUserTextLines lines

end CCMonitor

namespace CCMonitor

/-! ## Helper lemmas -/

theorem matchDigits1_chars {cs : List Char} (h : matchDigits1 cs = true) :
    ∀ c ∈ cs, c.isDigit = true := by
  cases cs with
  | nil => simp [matchDigits1] at h
  | cons a rest =>
    simp only [matchDigits1, Bool.and_eq_true, List.all_eq_true] at h
    intro c hc
    rcases List.mem_cons.mp hc with hc | hc
    · exact hc ▸ h.1
    · exact h.2 c hc

theorem ttyNumTail_chars {cs : List Char} (h : ttyNumTail cs = true) :
    ∀ c ∈ cs, c = 's' ∨ c.isDigit = true := by
  unfold ttyNumTail at h
  split at h
  · next rest =>
    intro c hc
    rcases List.mem_cons.mp hc with hc | hc
    · exact Or.inl hc
    · exact Or.inr (matchDigits1_chars h c hc)
  · intro c hc
    exact Or.inr (matchDigits1_chars h c hc)

theorem validTtyCore_chars {cs : List Char} (h : validTtyCore cs = true) :
    ∀ c ∈ cs, ttyPatternChar c := by
  unfold validTtyCore at h
  split at h
  · next rest =>
    split at h
    · next tail =>
      intro c hc
      simp only [List.mem_cons] at hc
      rcases hc with rfl | rfl | rfl | rfl | rfl | rfl | rfl | rfl | hc
      · exact Or.inl rfl
      · exact Or.inr (Or.inl rfl)
      · exact Or.inr (Or.inr (Or.inl rfl))
      · exact Or.inr (Or.inr (Or.inr (Or.inl rfl)))
      · exact Or.inl rfl
      · exact Or.inr (Or.inr (Or.inr (Or.inr (Or.inl rfl))))
      · exact Or.inr (Or.inr (Or.inr (Or.inr (Or.inl rfl))))
      · exact Or.inr (Or.inr (Or.inr (Or.inr (Or.inr (Or.inl rfl)))))
      · rcases ttyNumTail_chars h c hc with rfl | hd
        · exact Or.inr (Or.inr (Or.inr (Or.inr (Or.inr (Or.inr (Or.inl rfl))))))
        · exact Or.inr (Or.inr (Or.inr (Or.inr (Or.inr (Or.inr (Or.inr
            (Or.inr hd)))))))
    · next ds =>
      intro c hc
      simp only [List.mem_cons] at hc
      rcases hc with rfl | rfl | rfl | rfl | rfl | rfl | rfl | rfl | rfl | hc
      · exact Or.inl rfl
      · exact Or.inr (Or.inl rfl)
      · exact Or.inr (Or.inr (Or.inl rfl))
      · exact Or.inr (Or.inr (Or.inr (Or.inl rfl)))
      · exact Or.inl rfl
      · exact Or.inr (Or.inr (Or.inr (Or.inr (Or.inr (Or.inr (Or.inr
          (Or.inl rfl)))))))
      · exact Or.inr (Or.inr (Or.inr (Or.inr (Or.inl rfl))))
      · exact Or.inr (Or.inr (Or.inr (Or.inr (Or.inr (Or.inr (Or.inl rfl))))))
      · exact Or.inl rfl
      · exact Or.inr (Or.inr (Or.inr (Or.inr (Or.inr (Or.inr (Or.inr
          (Or.inr (matchDigits1_chars h c hc))))))))
    · exact absurd h (by simp)
  · exact absurd h (by simp)

theorem mem_insertLe {α : Type} {le : α → α → Bool} {x a : α} {l : List α} :
    a ∈ insertLe le x l ↔ a = x ∨ a ∈ l := by
  induction l with
  | nil => simp [insertLe]
  | cons y ys ih =>
    simp only [insertLe]
    split
    · simp
    · simp only [List.mem_cons, ih]
      tauto

theorem mem_sortByLe {α : Type} {le : α → α → Bool} {a : α} {l : List α} :
    a ∈ sortByLe le l ↔ a ∈ l := by
  induction l with
  | nil => simp [sortByLe]
  | cons x xs ih =>
    simp [sortByLe, mem_insertLe, ih]

theorem mem_evictPass {now : Int} {alive : String → Bool}
    {ss : List StoreSession} {s : StoreSession} :
    s ∈ evictPass now alive ss ↔
      s ∈ ss ∧ sessionKept now alive s = true := by
  simp [evictPass, List.mem_filter]

theorem mem_getSessions {now : Int} {alive : String → Bool} {reg : Registry}
    {s : StoreSession} :
    s ∈ getSessions now alive reg ↔
      s ∈ reg.sessions ∧ sessionKept now alive s = true := by
  simp [getSessions, mem_sortByLe, mem_evictPass]

theorem mem_takeover_tty {sid : String} {t : String}
    {ss : List StoreSession} {s : StoreSession}
    (h : s ∈ takeover sid (some t) ss) :
    s ∈ ss ∧ (s.tty = some t → s.session_id = sid) := by
  simp only [takeover, List.mem_filter] at h
  refine ⟨h.1, fun htty => ?_⟩
  have := h.2
  simp only [htty] at this
  simpa using this


/-- **C6.** A liveness check on an absent tty returns `true`, whatever the
filesystem (`statOk`), the clock (`now`) and the cache contents are, and the
cache is left untouched; the Swift menubar's check agrees. -/
theorem c6_isTtyAlive_absent_true :
    ∀ (statOk : String → Bool) (now : Int) (cache : TtyCache),
      isTtyAlive statOk now cache none = (true, cache) ∧
      swiftIsTtyAlive statOk none = true := by
  intro statOk now cache
  exact ⟨rfl, rfl⟩

/-- **C1.** TTY takeover: after applying an event with a present tty `t` for
session `sid`, every record of the resulting registry bound to `t` belongs
to `sid` (the previous holder of `t` was removed before the upsert), so a
subsequent `list()` contains only `sid`'s session for that tty — and, when
`t` is alive, does contain it. -/
theorem c1_tty_takeover
    (now : Int) (alive : String → Bool) (sid cwd t : String)
    (status : SessionStatus) (reg : Registry) :
    (∀ s ∈ (applyEvent now alive sid cwd (some t) status reg).sessions,
      s.tty = some t → s.session_id = sid) ∧
    (∀ s ∈ getSessions now alive
        (applyEvent now alive sid cwd (some t) status reg),
      s.tty = some t → s.session_id = sid) ∧
    (alive t = true →
      ∃ s ∈ getSessions now alive
          (applyEvent now alive sid cwd (some t) status reg),
        s.tty = some t ∧ s.session_id = sid ∧ s.updated_at = now) := by
  have hA : ∀ s ∈ (applyEvent now alive sid cwd (some t) status reg).sessions,
      s.tty = some t → s.session_id = sid := by
    intro s hs htty
    simp only [applyEvent] at hs
    set ss' := takeover sid (some t) (evictPass now alive reg.sessions)
      with hss'
    unfold upsert at hs
    split at hs
    · rcases List.mem_map.mp hs with ⟨s₀, hs₀, hfeq⟩
      by_cases hid : sameIdentity s₀ sid (some t) = true
      · rw [if_pos hid] at hfeq
        have : s.session_id = s₀.session_id := by rw [← hfeq]
        rw [this]
        have := (Bool.and_eq_true _ _).mp hid
        exact of_decide_eq_true this.1
      · rw [if_neg hid] at hfeq
        subst hfeq
        exact (mem_takeover_tty hs₀).2 htty
    · rcases List.mem_append.mp hs with hs | hs
      · exact (mem_takeover_tty hs).2 htty
      · rw [List.mem_singleton.mp hs]
  refine ⟨hA, ?_, ?_⟩
  · intro s hs htty
    exact hA s (mem_getSessions.mp hs).1 htty
  · intro halive
    have hkept : ∀ s : StoreSession, s.tty = some t → s.updated_at = now →
        sessionKept now alive s = true := by
      intro s h1 h2
      simp only [sessionKept, h1, h2, Bool.and_eq_true, decide_eq_true_eq]
      constructor
      · simp [SESSION_TIMEOUT_MS]
      · exact halive
    simp only [applyEvent, mem_getSessions]
    set ss' := takeover sid (some t) (evictPass now alive reg.sessions)
      with hss'
    unfold upsert
    split
    · next hany =>
      rcases List.any_eq_true.mp hany with ⟨s₀, hs₀, hid⟩
      have hid' := (Bool.and_eq_true _ _).mp hid
      have hsid : s₀.session_id = sid := of_decide_eq_true hid'.1
      have htty : s₀.tty = some t := of_decide_eq_true hid'.2
      refine ⟨{ s₀ with status := status, updated_at := now }, ⟨?_, ?_⟩,
        htty, hsid, rfl⟩
      · exact List.mem_map.mpr ⟨s₀, hs₀, by rw [if_pos hid]⟩
      · exact hkept _ htty rfl
    · refine ⟨⟨sid, cwd, some t, status, now, now⟩,
        ⟨?_, ?_⟩, rfl, rfl, rfl⟩
      · exact List.mem_append.mpr (Or.inr (List.mem_singleton.mpr rfl))
      · exact hkept _ rfl rfl

/-- Witness for C1 at a concrete input: session `a` holds `/dev/ttys001`;
an event for session `b` on the same tty leaves `b` as the only session
listed for that tty, and listed it is. -/
theorem c1_witness :
    (∀ s ∈ getSessions 1000 (fun _ => true)
        (applyEvent 1000 (fun _ => true) "b" "/home/u" (some "/dev/ttys001")
          SessionStatus.running
          ⟨[⟨"a", "/home/u", some "/dev/ttys001", SessionStatus.running,
            0, 900⟩], 900⟩),
      s.tty = some "/dev/ttys001" → s.session_id = "b") ∧
    (∃ s ∈ getSessions 1000 (fun _ => true)
        (applyEvent 1000 (fun _ => true) "b" "/home/u" (some "/dev/ttys001")
          SessionStatus.running
          ⟨[⟨"a", "/home/u", some "/dev/ttys001", SessionStatus.running,
            0, 900⟩], 900⟩),
      s.tty = some "/dev/ttys001" ∧ s.session_id = "b" ∧
        s.updated_at = 1000) := by
  refine ⟨?_, ?_⟩
  · exact (c1_tty_takeover 1000 (fun _ => true) "b" "/home/u" "/dev/ttys001"
      SessionStatus.running
      ⟨[⟨"a", "/home/u", some "/dev/ttys001", SessionStatus.running,
        0, 900⟩], 900⟩).2.1
  · exact (c1_tty_takeover 1000 (fun _ => true) "b" "/home/u" "/dev/ttys001"
      SessionStatus.running
      ⟨[⟨"a", "/home/u", some "/dev/ttys001", SessionStatus.running,
        0, 900⟩], 900⟩).2.2 rfl

/-- **C2 (counterexample).** The claim says every list/read omits sessions
whose `updated_at` is over 30 minutes old.  The menubar viewer's read
(`loadSessions` in `src/menubar/menubar.swift`, one of the claim's cited
sources) never consults `updated_at`: here it returns a session last
updated 2020-01-01 — older than 30 minutes at any read since — with its
tty alive, at a read performed at any time, since the function has no
clock input at all. -/
theorem c2_counterexample_menubar_keeps_stale :
    swiftLoadSessions
      (fun _ => some ⟨[("s1:/dev/ttys001", staleSession)],
        "2020-01-01T00:00:00.000Z"⟩)
      (fun _ => true) (some "raw") = [staleSession] := by
  rfl

/-- **C2 (amended).** The Registry Store's `list()` omits every session
whose `updated_at` lies more than `SESSION_TIMEOUT_MS` (30 minutes) in the
past, even if its tty is alive; the menubar viewer's `loadSessions`,
however, filters only by tty liveness, so it includes every tty-alive
session of the decoded store regardless of how old its `updated_at` is. -/
theorem c2_amended_timeout_eviction :
    (∀ (now : Int) (alive : String → Bool) (reg : Registry)
        (s : StoreSession),
      s ∈ getSessions now alive reg →
        now - s.updated_at ≤ SESSION_TIMEOUT_MS) ∧
    (∀ (decode : String → Option SwiftStoreData) (statOk : String → Bool)
        (raw : String) (store : SwiftStoreData) (k : String)
        (s : SwiftSession),
      decode raw = some store → (k, s) ∈ store.sessions →
        swiftIsTtyAlive statOk s.tty = true →
        s ∈ swiftLoadSessions decode statOk (some raw)) := by
  constructor
  · intro now alive reg s hs
    have := (mem_getSessions.mp hs).2
    simp only [sessionKept, Bool.and_eq_true, decide_eq_true_eq] at this
    exact this.1
  · intro decode statOk raw store k s hdec hmem halive
    simp only [swiftLoadSessions, hdec, mem_sortByLe, List.mem_filter]
    exact ⟨List.mem_map.mpr ⟨(k, s), hmem, rfl⟩, halive⟩

/-- Witness for the amended C2 at concrete inputs: a session 31 minutes old
is absent from the store's `list()`, while the menubar read keeps the
2020-vintage `staleSession` whose tty stats fine. -/
theorem c2_amended_witness :
    (∀ s ∈ getSessions (31 * 60 * 1000) (fun _ => true)
        ⟨[⟨"a", "/home/u", some "/dev/ttys001", SessionStatus.running,
          0, 0⟩], 0⟩,
      (31 * 60 * 1000 : Int) - s.updated_at ≤ SESSION_TIMEOUT_MS) ∧
    staleSession ∈ swiftLoadSessions
      (fun _ => some ⟨[("s1:/dev/ttys001", staleSession)],
        "2020-01-01T00:00:00.000Z"⟩)
      (fun _ => true) (some "raw") := by
  constructor
  · intro s hs
    exact c2_amended_timeout_eviction.1 (31 * 60 * 1000) (fun _ => true)
      ⟨[⟨"a", "/home/u", some "/dev/ttys001", SessionStatus.running,
        0, 0⟩], 0⟩ s hs
  · exact c2_amended_timeout_eviction.2
      (fun _ => some ⟨[("s1:/dev/ttys001", staleSession)],
        "2020-01-01T00:00:00.000Z"⟩)
      (fun _ => true) "raw" _ "s1:/dev/ttys001" staleSession rfl
      (by simp) rfl

/-- **C3.** The menubar read (`loadSessions`) omits every session whose tty
is set but no longer stats successfully — independently of `updated_at`,
which the filter never consults — and never omits a session whose tty is
absent on liveness grounds: such a session from the decoded store is always
in the result. -/
theorem c3_read_omits_dead_tty :
    (∀ (decode : String → Option SwiftStoreData) (statOk : String → Bool)
        (file : Option String) (s : SwiftSession) (t : String),
      s.tty = some t → statOk t = false →
        s ∉ swiftLoadSessions decode statOk file) ∧
    (∀ (decode : String → Option SwiftStoreData) (statOk : String → Bool)
        (raw : String) (store : SwiftStoreData) (k : String)
        (s : SwiftSession),
      decode raw = some store → (k, s) ∈ store.sessions → s.tty = none →
        s ∈ swiftLoadSessions decode statOk (some raw)) := by
  constructor
  · intro decode statOk file s t htty hdead hmem
    cases file with
    | none => simp [swiftLoadSessions] at hmem
    | some raw =>
      cases hdec : decode raw with
      | none => simp [swiftLoadSessions, hdec] at hmem
      | some store =>
        simp only [swiftLoadSessions, hdec, mem_sortByLe, List.mem_filter]
          at hmem
        have := hmem.2
        rw [htty] at this
        simp only [swiftIsTtyAlive, hdead] at this
        exact Bool.false_ne_true this
  · intro decode statOk raw store k s hdec hmem htty
    simp only [swiftLoadSessions, hdec, mem_sortByLe, List.mem_filter]
    refine ⟨List.mem_map.mpr ⟨(k, s), hmem, rfl⟩, ?_⟩
    simp [swiftIsTtyAlive, htty]

/-- Witness for C3 at concrete inputs: with every stat failing, the session
on `/dev/ttys001` is omitted from the read and the tty-less session is
still included. -/
theorem c3_witness :
    staleSession ∉ swiftLoadSessions
      (fun _ => some ⟨[("s1:/dev/ttys001", staleSession), ("s2:", noTtySession)],
        "2020-01-02T00:00:00.000Z"⟩)
      (fun _ => false) (some "raw") ∧
    noTtySession ∈ swiftLoadSessions
      (fun _ => some ⟨[("s1:/dev/ttys001", staleSession), ("s2:", noTtySession)],
        "2020-01-02T00:00:00.000Z"⟩)
      (fun _ => false) (some "raw") := by
  constructor
  · exact c3_read_omits_dead_tty.1
      (fun _ => some ⟨[("s1:/dev/ttys001", staleSession), ("s2:", noTtySession)],
        "2020-01-02T00:00:00.000Z"⟩)
      (fun _ => false) (some "raw") staleSession "/dev/ttys001" rfl rfl
  · exact c3_read_omits_dead_tty.2
      (fun _ => some ⟨[("s1:/dev/ttys001", staleSession), ("s2:", noTtySession)],
        "2020-01-02T00:00:00.000Z"⟩)
      (fun _ => false) "raw" _ "s2:" noTtySession rfl (by simp) rfl

/-- **C4.** A read of the persisted registry yields the empty session list,
returning normally, both when the backing file is missing
(`FileManager.contents` returns `nil`) and when its content fails to decode
(`JSONDecoder` throws, `try?` turns it into `nil`). -/
theorem c4_read_self_heals :
    (∀ (decode : String → Option SwiftStoreData) (statOk : String → Bool),
      swiftLoadSessions decode statOk none = []) ∧
    (∀ (decode : String → Option SwiftStoreData) (statOk : String → Bool)
        (raw : String),
      decode raw = none → swiftLoadSessions decode statOk (some raw) = []) := by
  constructor
  · intro decode statOk
    rfl
  · intro decode statOk raw hdec
    simp [swiftLoadSessions, hdec]

/-- Witness for C4 at concrete inputs: missing file and unparsable file both
read as the empty registry. -/
theorem c4_witness :
    swiftLoadSessions (fun _ => none) (fun _ => true) none = [] ∧
    swiftLoadSessions (fun _ => none) (fun _ => true) (some "not json") = [] := by
  constructor
  · exact c4_read_self_heals.1 (fun _ => none) (fun _ => true)
  · exact c4_read_self_heals.2 (fun _ => none) (fun _ => true) "not json" rfl

/-- **C9.** `focusSession` returns `false` — for every possible AppleScript
executor, i.e. without any script being able to influence the outcome —
whenever the platform is not macOS or the tty fails the
`/^\/dev\/(ttys?\d+|pts\/\d+)$/` check; and any string containing a double
quote, space, tab, newline, carriage return or semicolon fails that check,
so such input never reaches `osascript`. -/
theorem c9_focusSession_rejects_unvalidated :
    (∀ (platform : String) (exec : FocusScript → Bool) (tty : String),
      isMacOS platform = false ∨ isValidTtyPath tty = false →
        focusSession platform exec tty = false) ∧
    (∀ (s : String) (c : Char), c ∈ s.data →
      (c = '"' ∨ c = ' ' ∨ c = '\t' ∨ c = '\n' ∨ c = '\r' ∨ c = ';') →
        isValidTtyPath s = false) := by
  constructor
  · intro platform exec tty h
    unfold focusSession
    rcases h with h | h <;> simp [h]
  · intro s c hc hbad
    by_contra hval
    have hv : isValidTtyPath s = true := by
      cases hx : isValidTtyPath s
      · exact absurd hx hval
      · rfl
    have := validTtyCore_chars hv c hc
    rcases hbad with rfl | rfl | rfl | rfl | rfl | rfl <;>
      simp [ttyPatternChar] at this

/-- Witness for C9 at concrete inputs: a non-macOS platform is rejected even
for a valid tty; an injection attempt containing `"` fails validation. -/
theorem c9_witness :
    focusSession "linux" (fun _ => true) "/dev/pts/0" = false ∧
    isValidTtyPath "/dev/ttys001\"; rm -rf /" = false := by
  constructor
  · exact c9_focusSession_rejects_unvalidated.1 "linux" (fun _ => true)
      "/dev/pts/0" (Or.inl (by decide))
  · exact c9_focusSession_rejects_unvalidated.2 "/dev/ttys001\"; rm -rf /"
      '"' (by decide) (Or.inl rfl)

/-- **C7.** For a present (non-empty) tty whose `stat` call errors
(`statOk t = false`), when the check actually runs (no still-valid cache
entry), `isTtyAlive` returns `false` instead of propagating the error, and
records `⟨alive := false, checkedAt := now⟩` in the cache for that tty. -/
theorem c7_isTtyAlive_stat_error_fail_closed
    (statOk : String → Bool) (now : Int) (cache : TtyCache) (t : String)
    (hne : t ≠ "")
    (hmiss : cacheGet cache t = none ∨
      ∃ e, cacheGet cache t = some e ∧ TTY_CACHE_TTL_MS ≤ now - e.checkedAt)
    (herr : statOk t = false) :
    isTtyAlive statOk now cache (some t) =
      (false, cacheSet cache t ⟨false, now⟩) := by
  unfold isTtyAlive
  rcases hmiss with h | ⟨e, he, hexp⟩
  · simp [hne, h, herr]
  · simp [hne, he, herr, not_lt.mpr hexp]

/-- Witness for C7 at a concrete input: empty cache, a stat that fails. -/
theorem c7_witness :
    isTtyAlive (fun _ => false) 1000 [] (some "/dev/ttys001") =
      (false, cacheSet [] "/dev/ttys001" ⟨false, 1000⟩) :=
  c7_isTtyAlive_stat_error_fail_closed (fun _ => false) 1000 [] "/dev/ttys001"
    (by decide) (Or.inl (by decide)) rfl

/-- **C8.** For a present (non-empty) tty: a cache entry fresher than
`TTY_CACHE_TTL_MS` is returned as-is, with the cache unchanged and without
consulting the filesystem (the result is the same for every `statOk`);
a missing or expired entry triggers a fresh `statOk` check whose result
overwrites the cache entry for that tty with timestamp `now`. -/
theorem c8_isTtyAlive_cache_ttl
    (statOk : String → Bool) (now : Int) (cache : TtyCache) (t : String)
    (hne : t ≠ "") :
    (∀ e, cacheGet cache t = some e → now - e.checkedAt < TTY_CACHE_TTL_MS →
      isTtyAlive statOk now cache (some t) = (e.alive, cache)) ∧
    ((cacheGet cache t = none ∨
        ∃ e, cacheGet cache t = some e ∧ TTY_CACHE_TTL_MS ≤ now - e.checkedAt) →
      isTtyAlive statOk now cache (some t) =
        (statOk t, cacheSet cache t ⟨statOk t, now⟩)) := by
  constructor
  · intro e he hfresh
    unfold isTtyAlive
    simp [hne, he, hfresh]
  · intro hmiss
    unfold isTtyAlive
    rcases hmiss with h | ⟨e, he, hexp⟩
    · simp [hne, h]
    · simp [hne, he, not_lt.mpr hexp]

/-- **C5.** `isValidHookEventName` (the spec's `isValidEventName`) returns
`true` exactly on the five names `UserPromptSubmit`, `PreToolUse`,
`PostToolUse`, `Notification`, `Stop`, compared case-sensitively with no
normalization; every other string (wrong case, unknown, empty) yields
`false`. -/
theorem c5_isValidHookEventName_iff :
    ∀ s : String, isValidHookEventName s = true ↔
      (s = "UserPromptSubmit" ∨ s = "PreToolUse" ∨ s = "PostToolUse" ∨
        s = "Notification" ∨ s = "Stop") := by
  intro s
  simp [isValidHookEventName, VALID_HOOK_EVENTS, HOOK_EVENTS]

/-- `getFirstUserMessageLines` is the eligible-text scan followed by the
title truncation. -/
theorem getFirstUserMessageLines_map
    (lines : List (Option TranscriptEntry)) :
    getFirstUserMessageLines lines =
      (firstEligibleUserTextLines lines).map truncateTaskTitle := by
  induction lines with
  | nil => rfl
  | cons line rest ih =>
    cases line with
    | none =>
      simpa [getFirstUserMessageLines, firstEligibleUserTextLines] using ih
    | some e =>
      cases hc : e.content with
      | none =>
        simpa [getFirstUserMessageLines, firstEligibleUserTextLines, hc]
          using ih
      | some c =>
        simp only [getFirstUserMessageLines, firstEligibleUserTextLines, hc]
        split
        · cases hx : extractUserText c <;> simp [hx, ih]
        · exact ih

/-- The truncated title never exceeds `MAX_TASK_TITLE_LENGTH` characters. -/
theorem truncateTaskTitle_le (t : String) :
    (truncateTaskTitle t).length ≤ MAX_TASK_TITLE_LENGTH := by
  unfold truncateTaskTitle
  split
  · next h => exact h
  · next h =>
    show ((⟨t.data.take (MAX_TASK_TITLE_LENGTH - 1)⟩ : String) ++ "…").length
      ≤ MAX_TASK_TITLE_LENGTH
    show (t.data.take (MAX_TASK_TITLE_LENGTH - 1) ++ "…".data).length
      ≤ MAX_TASK_TITLE_LENGTH
    rw [List.length_append]
    have h1 : (t.data.take (MAX_TASK_TITLE_LENGTH - 1)).length ≤
        MAX_TASK_TITLE_LENGTH - 1 := by
      simp [List.length_take]
    have h2 : "…".data.length = 1 := by decide
    simp only [MAX_TASK_TITLE_LENGTH] at *
    omega

/-- **C10.** `getFirstUserMessage` truncates the first eligible user text
(and does nothing else to it): it equals that text when it is at most 50
characters long, and its first 49 characters followed by the single
character `…` otherwise; in particular every returned title has at most
50 characters, and a transcript without an eligible text yields `none`. -/
theorem c10_first_user_message_truncation :
    (∀ file : Option (List (Option TranscriptEntry)),
      getFirstUserMessage file =
        (firstEligibleUserText file).map truncateTaskTitle) ∧
    (∀ t : String, t.length ≤ 50 → truncateTaskTitle t = t) ∧
    (∀ t : String, 50 < t.length →
      truncateTaskTitle t = (⟨t.data.take 49⟩ : String) ++ "…") ∧
    (∀ (file : Option (List (Option TranscriptEntry))) (r : String),
      getFirstUserMessage file = some r → r.length ≤ 50) := by
  have hmap : ∀ file : Option (List (Option TranscriptEntry)),
      getFirstUserMessage file =
        (firstEligibleUserText file).map truncateTaskTitle := by
    intro file
    cases file with
    | none => rfl
    | some lines =>
      exact getFirstUserMessageLines_map lines
  refine ⟨hmap, ?_, ?_, ?_⟩
  · intro t ht
    show (if t.length ≤ MAX_TASK_TITLE_LENGTH then t else _) = t
    rw [if_pos (show t.length ≤ MAX_TASK_TITLE_LENGTH from ht)]
  · intro t ht
    show (if t.length ≤ MAX_TASK_TITLE_LENGTH then t
      else (⟨t.data.take (MAX_TASK_TITLE_LENGTH - 1)⟩ : String) ++ "…") =
      (⟨t.data.take 49⟩ : String) ++ "…"
    rw [if_neg (by simp only [MAX_TASK_TITLE_LENGTH]; omega)]
    rfl
  · intro file r h
    rw [hmap file] at h
    cases he : firstEligibleUserText file with
    | none => rw [he] at h; simp at h
    | some t =>
      rw [he] at h
      rw [show Option.map truncateTaskTitle (some t) =
        some (truncateTaskTitle t) from rfl] at h
      have h := Option.some.inj h
      have := truncateTaskTitle_le t
      rw [h] at this
      exact this

/-- Witness for C10 at concrete inputs: a short text passes unchanged, a
60-character text is cut to 49 characters plus `…`, and a concrete
transcript's returned title is within the bound. -/
theorem c10_witness :
    truncateTaskTitle "Fix the login bug" = "Fix the login bug" ∧
    truncateTaskTitle
        "AAAAAAAAAAAAAAAAAAAAAAAAAAAAAAAAAAAAAAAAAAAAAAAAAAAAAAAAAAAA" =
      (⟨("AAAAAAAAAAAAAAAAAAAAAAAAAAAAAAAAAAAAAAAAAAAAAAAAAAAAAAAAAAAA"
          : String).data.take 49⟩ : String) ++ "…" ∧
    "Fix the login bug".length ≤ 50 := by
  refine ⟨?_, ?_, ?_⟩
  · exact c10_first_user_message_truncation.2.1 "Fix the login bug"
      (by decide)
  · exact c10_first_user_message_truncation.2.2.1
      "AAAAAAAAAAAAAAAAAAAAAAAAAAAAAAAAAAAAAAAAAAAAAAAAAAAAAAAAAAAA"
      (by decide)
  · exact c10_first_user_message_truncation.2.2.2
      (some [some ⟨"user", some (JsonContent.str "Fix the login bug")⟩])
      "Fix the login bug" (by decide)

/-- Witness for C8 at concrete inputs: a fresh cache hit is served from the
cache (even with a failing `statOk`), and an expired entry is re-checked. -/
theorem c8_witness :
    isTtyAlive (fun _ => false) 1000
      [("/dev/ttys001", ⟨true, 990⟩)] (some "/dev/ttys001") =
      (true, [("/dev/ttys001", ⟨true, 990⟩)]) ∧
    isTtyAlive (fun _ => true) 100000
      [("/dev/ttys001", ⟨false, 0⟩)] (some "/dev/ttys001") =
      (true, cacheSet [("/dev/ttys001", ⟨false, 0⟩)] "/dev/ttys001"
        ⟨true, 100000⟩) := by
  constructor
  · exact (c8_isTtyAlive_cache_ttl (fun _ => false) 1000
      [("/dev/ttys001", ⟨true, 990⟩)] "/dev/ttys001" (by decide)).1
      ⟨true, 990⟩ (by decide) (by decide)
  · exact (c8_isTtyAlive_cache_ttl (fun _ => true) 100000
      [("/dev/ttys001", ⟨false, 0⟩)] "/dev/ttys001" (by decide)).2
      (Or.inr ⟨⟨false, 0⟩, by decide, by decide⟩)

end CCMonitor
